import Mathlib

/-!
Verification of the pydbpintegrator synchronization engine (integrator.py).

The Python source is shallowly embedded: Python strings are lists of
characters, Python integers are Nat (every value the program manipulates is
nonnegative), a raised exception or failed assertion is an Option/Except
failure, and the polling loop of run() is a step function on an explicit
engine state driven by a stub for the remote server's responses.
-/

/-- The character for decimal digit d, as Python str() renders it. -/
def digitChar (d : Nat) : Char := Char.ofNat (48 + d)

/-- Fixed-width big-endian decimal rendering: the w decimal digits of n, most
significant first.  Agrees with Python str(n).zfill(w) whenever n < 10^w. -/
def padDigits : Nat → Nat → List Char
  | 0, _ => []
  | w + 1, n => digitChar (n / 10 ^ w) :: padDigits w (n % 10 ^ w)

/-- Number of decimal digits of n, computed with explicit fuel (n itself is
always enough fuel). -/
def numDigitsGo : Nat → Nat → Nat
  | 0, _ => 1
  | fuel + 1, n => if n < 10 then 1 else numDigitsGo fuel (n / 10) + 1

/-- Number of decimal digits of n, the length of Python str(n). -/
def numDigits (n : Nat) : Nat := numDigitsGo n n

/-- Python str(n).zfill(w): left pad the decimal form of n with zeros to
width w; a number that already has w or more digits is kept whole. -/
def zfill (w n : Nat) : List Char := padDigits (max w (numDigits n)) n

/-- Strict lexicographic comparison of two character lists by code point:
the order Python uses to compare the cursor strings. -/
def lexLt : List Char → List Char → Bool
  | _, [] => false
  | [], _ :: _ => true
  | a :: as, b :: bs =>
    if a.toNat < b.toNat then true
    else if a = b then lexLt as bs
    else false

/-- The list of characters of a string literal. -/
def txt (s : String) : List Char := s.data

/-- A calendar date as Python datetime.date holds it. -/
structure Date where
  y : Nat
  m : Nat
  d : Nat
deriving DecidableEq

/-- Gregorian leap-year test, as Python's datetime module implements it. -/
def isLeap (y : Nat) : Bool := (y % 4 == 0 && !(y % 100 == 0)) || y % 400 == 0

/-- Days in a month of the Gregorian calendar (0 for a month number outside
1..12, which datetime.date rejects anyway). -/
def daysInMonth (y m : Nat) : Nat :=
  match m with
  | 1 => 31
  | 2 => if isLeap y then 29 else 28
  | 3 => 31
  | 4 => 30
  | 5 => 31
  | 6 => 30
  | 7 => 31
  | 8 => 31
  | 9 => 30
  | 10 => 31
  | 11 => 30
  | 12 => 31
  | _ => 0

/-- The constructor checks of datetime.date(y, m, d): datetime.MINYEAR = 1
and datetime.MAXYEAR = 9999. -/
def validDate (y m d : Nat) : Bool :=
  decide (1 ≤ y) && decide (y ≤ 9999) && decide (1 ≤ m) && decide (m ≤ 12) &&
  decide (1 ≤ d) && decide (d ≤ daysInMonth y m)

/-- datetime.date(y, m, d) + timedelta(days=1) on a valid date: the successor
date in the proleptic Gregorian calendar. -/
def dateAddDay (t : Date) : Date :=
  if t.d < daysInMonth t.y t.m then ⟨t.y, t.m, t.d + 1⟩
  else if t.m < 12 then ⟨t.y, t.m + 1, 1⟩
  else ⟨t.y + 1, 1, 1⟩

/-- datetime.datetime(y, m, d, h) + timedelta(hours=1) on a valid date and
hour: the date advances when the hour rolls past 23. -/
def dtAddHour (t : Date) (h : Nat) : Date × Nat :=
  if h < 23 then (t, h + 1) else (dateAddDay t, 0)

/-- Leap days among the years 1..n of the proleptic Gregorian calendar. -/
def leapsBefore (n : Nat) : Nat := n / 4 + n / 400 - n / 100

/-- Days from the start of year y to the start of its month m (1-based). -/
def daysBeforeMonth (y m : Nat) : Nat :=
  let l : Nat := if isLeap y then 1 else 0
  match m with
  | 1 => 0
  | 2 => 31
  | 3 => 59 + l
  | 4 => 90 + l
  | 5 => 120 + l
  | 6 => 151 + l
  | 7 => 181 + l
  | 8 => 212 + l
  | 9 => 243 + l
  | 10 => 273 + l
  | 11 => 304 + l
  | 12 => 334 + l
  | _ => 0

/-- Ordinal day number of a date in the proleptic Gregorian calendar (what
datetime.date.toordinal computes): 0001-01-01 is day 1. -/
def rataDie (t : Date) : Nat :=
  365 * (t.y - 1) + leapsBefore (t.y - 1) + daysBeforeMonth t.y t.m + t.d

/-- One yield of UpdateDate._string_values for the component at index i:
width 4 for the year, width 2 for month/day/hour, width 6 for the sequence;
increment is added to the sequence component only. -/
def componentText (i v increment : Nat) : Option (List Char) :=
  if i = 0 then some (zfill 4 v)
  else if i < 4 then some (zfill 2 v)
  else if i = 4 then some (zfill 6 (v + increment))
  else none

def string_values_go (i limit increment : Nat) : List Nat → List (List Char)
  | [] => []
  | v :: rest =>
    if limit ≤ i then []
    else
      match componentText i v increment with
      | some s => s :: string_values_go (i + 1) limit increment rest
      | none => string_values_go (i + 1) limit increment rest

/-- UpdateDate._string_values(limit, increment): zero-padded component
strings, stopping at index limit. -/
def string_values (values : List Nat) (limit increment : Nat) : List (List Char) :=
  string_values_go 0 limit increment values

/-- Python sep.join(parts). -/
def joinSep (sep : Char) : List (List Char) → List Char
  | [] => []
  | [x] => x
  | x :: rest => x ++ sep :: joinSep sep rest

/-- UpdateDate.__unicode__: the YYYY-MM-DD-HH-IIIIII rendering; an incomplete
date renders only its present components. -/
def UpdateDate.toText (values : List Nat) : List Char :=
  joinSep '-' (string_values values 5 0)

/-- UpdateDate.for_comparison: the literal string for an incomplete date,
the string with the sequence component incremented by one for a complete
date. -/
def UpdateDate.for_comparison (values : List Nat) : List Char :=
  if values.length < 5 then UpdateDate.toText values
  else joinSep '-' (string_values values 5 1)

/-- UpdateDate.url: the slash-joined components used to build remote URLs. -/
def UpdateDate.url (values : List Nat) : List Char :=
  joinSep '/' (string_values values 5 0)

/-- UpdateDate.path: the download directory path, first four components. -/
def UpdateDate.path (values : List Nat) : List Char :=
  joinSep '/' (string_values values 4 0)

/-- Python value.split(sep) with a single-character separator. -/
def splitOnDash : List Char → List (List Char)
  | [] => [[]]
  | c :: rest =>
    if c = '-' then [] :: splitOnDash rest
    else
      match splitOnDash rest with
      | g :: gs => (c :: g) :: gs
      | [] => [[c]]

def isDigitChar (c : Char) : Bool := 48 ≤ c.toNat && c.toNat ≤ 57

/-- Python int() on a plain string of decimal digits. -/
def digitsToNat (cs : List Char) : Nat :=
  cs.foldl (fun a c => a * 10 + (c.toNat - 48)) 0

/-- UpdateDate.set_value: split on the dash, require more than one component
(the source's assertion) and every component numeric (int() raises
otherwise); none models the raised error. -/
def UpdateDate.set_value (cs : List Char) : Option (List Nat) :=
  let parts := splitOnDash cs
  if decide (1 < parts.length) && parts.all (fun p => !p.isEmpty && p.all isDigitChar)
  then some (parts.map digitsToNat)
  else none

/-- UpdateDate.increment: none models a raised exception (the failed length
assertion, a ValueError from the datetime.date / datetime.datetime
constructor, or the OverflowError raised when stepping past
datetime.MAXYEAR = 9999). -/
def UpdateDate.increment : List Nat → Option (List Nat)
  | [y, m] =>
    if 11 < m then some [y + 1, 1, 0, 0, 0]
    else some [y, m + 1, 0, 0, 0]
  | [y, m, d] =>
    if validDate y m d then
      if y == 9999 && m == 12 && d == 31 then none
      else
        let t := dateAddDay ⟨y, m, d⟩
        some [t.y, t.m, t.d, 0, 0]
    else none
  | [y, m, d, h] =>
    if validDate y m d && decide (h ≤ 23) then
      if y == 9999 && m == 12 && d == 31 && h == 23 then none
      else
        let p := dtAddHour ⟨y, m, d⟩ h
        some [p.1.y, p.1.m, p.1.d, p.2, 0]
    else none
  | [y, m, d, h, s] => some [y, m, d, h, s + 1]
  | _ => none

/-- UpdateDate.finish_hour: truncate to the first four components; none
models the failed length assertion. -/
def UpdateDate.finish_hour (values : List Nat) : Option (List Nat) :=
  if 4 ≤ values.length then some (values.take 4) else none

def fitsWidthsGo (i : Nat) : List Nat → Bool
  | [] => true
  | v :: rest =>
    (if i = 0 then decide (v < 10000)
     else if i < 4 then decide (v < 100)
     else decide (v < 1000000)) && fitsWidthsGo (i + 1) rest

/-- Every component of a cursor fits its fixed rendering width: 4 digits for
the year, 2 for month, day and hour, 6 for the sequence: exactly the widths
the spec relies on for the lexicographic string order to be correct. -/
def fitsWidths (values : List Nat) : Bool :=
  fitsWidthsGo 0 values

/-- The whitespace characters Python str.strip() removes. -/
def isPySpace (c : Char) : Bool :=
  c = ' ' || c = '\t' || c = '\n' || c = '\r' || c = '\x0b' || c = '\x0c'

/-- Python text.strip(). -/
def pyStrip (cs : List Char) : List Char :=
  ((cs.dropWhile isPySpace).reverse.dropWhile isPySpace).reverse

/-- The mutable state of run()'s polling loop: the in-memory cursor values,
the cached last_published marker (None before the first fetch), and the text
sitting in the last-update store file. -/
structure EngineState where
  cursor : List Nat
  published : Option (List Char)
  stored : List Char
deriving DecidableEq

/-- The loop guard last_updated.for_comparison() < last_published.  In
Python 2 a string never compares below None, so the guard is False until
the first marker fetch. -/
def behind (cursor : List Nat) (published : Option (List Char)) : Bool :=
  match published with
  | none => false
  | some p => lexLt (UpdateDate.for_comparison cursor) p

/-- What one pass of run()'s while-loop observably did. -/
inductive Event where
  | fetchedMarker
  | applied (hasAdded hasRemoved : Bool)
  | exhausted
deriving DecidableEq

inductive StepResult where
  | ok (s : EngineState) (e : Event)
  | fatalInconsistent (s : EngineState)
  | err
deriving DecidableEq

/-- One pass of run()'s while-loop.  When the cursor compares behind the
cached marker the loop increments it, asks the stub whether the added and
removed delta files exist for the new cursor, and either applies what was
found and persists the cursor, or — when both files are absent — finishes
the hour, asserts the truncated cursor is still behind the marker
(fatalInconsistent models the AssertionError, raised before any write) and
persists the truncation.  Otherwise the loop (re)fetches the published
marker, whose text is stripped.  err models a raised exception from
increment() or finish_hour(). -/
def run_step (stub : List Nat → Bool × Bool) (marker_src : List Char)
    (s : EngineState) : StepResult :=
  if behind s.cursor s.published then
    match UpdateDate.increment s.cursor with
    | none => .err
    | some c2 =>
      let present := stub c2
      if !present.1 && !present.2 then
        match UpdateDate.finish_hour c2 with
        | none => .err
        | some c3 =>
          if behind c3 s.published then
            .ok ⟨c3, s.published, UpdateDate.toText c3⟩ .exhausted
          else
            .fatalInconsistent ⟨c3, s.published, s.stored⟩
      else
        .ok ⟨c2, s.published, UpdateDate.toText c2⟩ (.applied present.1 present.2)
  else
    .ok ⟨s.cursor, some (pyStrip marker_src), s.stored⟩ .fetchedMarker

/-- Iterate run_step n passes, collecting the events; none when some pass
raised or failed fatally. -/
def run_steps (stub : List Nat → Bool × Bool) (marker_src : List Char) :
    Nat → EngineState → Option (EngineState × List Event)
  | 0, s => some (s, [])
  | n + 1, s =>
    match run_step stub marker_src s with
    | .ok s2 e =>
      match run_steps stub marker_src n s2 with
      | some (s3, es) => some (s3, e :: es)
      | none => none
    | _ => none

/-- The fixed published marker of the catch-up scenario. -/
def marker0 : List Char := txt "2021-05-01-03-000002"

/-- The initial engine state of the catch-up scenario: the cursor as read
from the store file, no marker fetched yet. -/
def scenarioInit (cursor : List Nat) : EngineState :=
  ⟨cursor, none, UpdateDate.toText cursor⟩

/-- The applied event recorded for hour h sequence s of the scenario day. -/
def appliedEv (stub : List Nat → Bool × Bool) (h s : Nat) : Event :=
  .applied (stub [2021, 5, 1, h, s]).1 (stub [2021, 5, 1, h, s]).2

/-- The event trace of one fully exhausted hour h holding e delta pairs. -/
def hourTrace (stub : List Nat → Bool × Bool) (h e : Nat) : List Event :=
  (List.range e).map (fun s => appliedEv stub h s) ++ [Event.exhausted]

/-- A concrete delta stub for the catch-up scenario: hours 0..2 of
2021-05-01 hold exactly one delta pair (sequence 0), hour 3 holds pairs at
sequences 0 and 1. -/
def scenarioStub : List Nat → Bool × Bool
  | [_, _, _, h, s] =>
    if h == 3 then (decide (s ≤ 1), decide (s ≤ 1))
    else (decide (s = 0), decide (s = 0))
  | _ => (false, false)

/-- One response of the remote server to one attempt of urlretrieve's retry
loop. -/
inductive FetchResp where
  | notFound
  | transientError
  | success (content : List Char)
deriving DecidableEq

inductive FetchOutcome where
  | errUnpack
  | pending
  | absent
  | saved (path : List Char)
deriving DecidableEq

/-- The last path segment of a URL: url.rsplit('/', 1)[1]. -/
def lastSegment (cs : List Char) : List Char :=
  (List.takeWhile (fun c => c != '/') cs.reverse).reverse

/-- os.path.join(directory, filename). -/
def pathJoin (d f : List Char) : List Char :=
  if f.head? = some '/' then f
  else if d = [] then f
  else if d.getLast? = some '/' then d ++ f
  else d ++ '/' :: f

def urlretrieveGo (path : List Char) : List FetchResp → FetchOutcome
  | [] => .pending
  | .notFound :: _ => .absent
  | .transientError :: rest => urlretrieveGo path rest
  | .success _ :: _ => .saved path

/-- urlretrieve(url, directory): derive the destination file from the URL's
final path segment (unpacking raises when the URL has no slash), then loop:
a not-found response returns None at once, any other transport or server
error sleeps RETRY_WAIT seconds and retries the identical request, and a
successful response streams the body to the destination and returns its
path.  The scripted list holds the server's response to each attempt in
turn; pending stands for a loop still retrying when the script runs out. -/
def urlretrieve (responses : List FetchResp) (url directory : List Char) :
    FetchOutcome :=
  if '/' ∈ url then
    urlretrieveGo (pathJoin directory (lastSegment url)) responses
  else .errUnpack

/-- LastUpdateStore.write(value): seek(0), truncate(), write, flush — the
file content becomes exactly the written text. -/
def LastUpdateStore.write (_content value : List Char) : List Char := value

/-- LastUpdateStore.read(): the entire file content, stripped. -/
def LastUpdateStore.read (content : List Char) : List Char := pyStrip content

/-- Closing and reopening the store (mode r+ on an existing file) keeps the
file content: models a process restart between a write and a read. -/
def LastUpdateStore.reopen (content : List Char) : List Char := content

/-- A JSON value as Python's json.loads builds it. -/
inductive JValue where
  | null
  | bool (b : Bool)
  | num (n : Int)
  | str (s : List Char)
  | arr (xs : List JValue)
  | obj (fields : List (List Char × JValue))

inductive PyErr where
  | valueError
  | typeError
  | indexError
  | keyError
  | urlError
deriving DecidableEq

/-- The store's behaviour for one POSTed query: a non-HTTP transport error,
an HTTP error response, or a body (none when the body is not valid JSON). -/
inductive StoreResult where
  | urlError
  | httpError
  | body (json : Option JValue)

def lookupField : List (List Char × JValue) → List Char → Option JValue
  | [], _ => none
  | (k, v) :: rest, key => if k = key then some v else lookupField rest key

/-- Python value[key] for a string key: dictionary lookup raising KeyError
when the key is missing; indexing anything else by a string raises
TypeError. -/
def jIndexStr (v : JValue) (key : List Char) : Except PyErr JValue :=
  match v with
  | .obj fs =>
    match lookupField fs key with
    | some x => .ok x
    | none => .error .keyError
  | _ => .error .typeError

/-- Python value[0]: list indexing (IndexError on an empty list), string
indexing (a one-character string), dictionary lookup of the key 0 (KeyError,
since JSON object keys are strings), TypeError on scalars. -/
def jIndexZero (v : JValue) : Except PyErr JValue :=
  match v with
  | .arr xs =>
    match xs.head? with
    | some x => .ok x
    | none => .error .indexError
  | .str s =>
    match s.head? with
    | some c => .ok (.str [c])
    | none => .error .indexError
  | .obj _ => .error .keyError
  | _ => .error .typeError

/-- response['results']['bindings'][0]['callret-0']['value']. -/
def jPathValue (j : JValue) : Except PyErr JValue := do
  let r1 ← jIndexStr j (txt "results")
  let r2 ← jIndexStr r1 (txt "bindings")
  let r3 ← jIndexZero r2
  let r4 ← jIndexStr r3 (txt "callret-0")
  jIndexStr r4 (txt "value")

/-- Does cs start with the given literal? -/
def startsWith : List Char → List Char → Bool
  | [], _ => true
  | _ :: _, [] => false
  | n :: ns, c :: cs => n == c && startsWith ns cs

/-- Does the literal needle occur in cs after zero or more non-newline
characters?  This is what a greedy dot-star followed by the literal can
consume (the dot never matches a newline). -/
def dotStarThen (needle : List Char) : List Char → Bool
  | [] => startsWith needle []
  | c :: cs =>
    if startsWith needle (c :: cs) then true
    else if c = '\n' then false
    else dotStarThen needle cs

/-- Match the tail pattern of SPARQL._response_regex — the literal ">, ",
one or more digits (the captured group), a space, then any non-newline run
followed by " triples -- done" — at the head of cs. -/
def tryTail (cs : List Char) : Option Nat :=
  if startsWith (txt ">, ") cs then
    let rest := cs.drop 3
    let ds := rest.takeWhile isDigitChar
    if ds.isEmpty then none
    else
      match rest.drop ds.length with
      | ' ' :: rest3 =>
        if dotStarThen (txt " triples -- done") rest3 then some (digitsToNat ds)
        else none
      | _ => none
  else none

def extractGo : List Char → Option Nat
  | [] => none
  | c :: cs =>
    match (if c = '\n' then none else extractGo cs) with
    | some n => some n
    | none => tryTail (c :: cs)

/-- The count SPARQL._response_regex extracts from a message: Python's
re.match with pattern ".*>, (\d+) .* triples -- done" and int(group(1)).
The leading greedy dot-star prefers the latest viable start position, no
dot crosses a newline, and the match may end before the end of the
message. -/
def extractCount (msg : List Char) : Option Nat := extractGo msg

/-- SPARQL.query: POST the query (a non-HTTP transport error propagates),
parse the JSON body (a parse failure propagates as ValueError), extract the
callret-0 value — only KeyError is caught by the inner except, yielding the
final return 0 — then regex-match it: a match returns its captured count, no
match falls through to 0, a non-string value makes re.match raise TypeError,
and an HTTPError from the store is caught, logged and yields 0. -/
def SPARQL.query (store : List Char → StoreResult) (q : List Char) :
    Except PyErr Nat :=
  match store q with
  | .urlError => .error .urlError
  | .httpError => .ok 0
  | .body none => .error .valueError
  | .body (some j) =>
    match jPathValue j with
    | .error .keyError => .ok 0
    | .error e => .error e
    | .ok (.str msg) =>
      match extractCount msg with
      | some n => .ok n
      | none => .ok 0
    | .ok _ => .error .typeError

/-- The query text built by SPARQL.insert. -/
def insertStmt (triple : List Char) : List Char :=
  txt "INSERT \x7b " ++ triple ++ txt " \x7d"

/-- The query text built by SPARQL.delete: the statement is both pattern and
condition. -/
def deleteStmt (triple : List Char) : List Char :=
  txt "DELETE \x7b " ++ triple ++ txt " \x7d WHERE \x7b " ++ triple ++ txt " \x7d"

/-- SPARQL.insert: `if triple:` — only the empty string is falsy in Python,
so an empty statement issues no query and the method falls through,
returning None (ok none); any other statement, whitespace-only included,
issues the INSERT and returns what query() reports. -/
def SPARQL.insert (store : List Char → StoreResult) (triple : List Char) :
    Except PyErr (Option Nat) :=
  if triple = [] then .ok none
  else (SPARQL.query store (insertStmt triple)).map some

/-- SPARQL.delete, same contract as insert with the DELETE-WHERE text. -/
def SPARQL.delete (store : List Char → StoreResult) (triple : List Char) :
    Except PyErr (Option Nat) :=
  if triple = [] then .ok none
  else (SPARQL.query store (deleteStmt triple)).map some

/-- The JSON body of a well-formed Virtuoso response reporting 7 affected
triples. -/
def json7 : JValue :=
  .obj [(txt "results", .obj [(txt "bindings", .arr [.obj
    [(txt "callret-0", .obj [(txt "value",
      .str (txt "Insert into <g>, 7 (or less) triples -- done"))])]])])]

/-- A store whose every response is that well-formed body. -/
def store7 : List Char → StoreResult := fun _ => .body (some json7)
theorem padDigits_length (w n : Nat) : (padDigits w n).length = w := by
  induction w generalizing n with
  | zero => rfl
  | succ w ih => simp [padDigits, ih]

theorem numDigitsGo_le (fuel n w : Nat) (hw : 0 < w) (hn : n < 10 ^ w) :
    numDigitsGo fuel n ≤ w := by
  induction fuel generalizing n w with
  | zero => simpa [numDigitsGo] using hw
  | succ fuel ih =>
    by_cases h : n < 10
    · simpa [numDigitsGo, h] using hw
    · have hw2 : 2 ≤ w := by
        rcases Nat.lt_or_ge w 2 with hlt | hge
        · have hw1 : w = 1 := by omega
          subst hw1
          simp only [pow_one] at hn
          omega
        · exact hge
      have hdiv : n / 10 < 10 ^ (w - 1) := by
        rw [Nat.div_lt_iff_lt_mul (by norm_num)]
        calc n < 10 ^ w := hn
        _ = 10 ^ (w - 1) * 10 := by
              rw [← pow_succ]
              congr 1
              omega
      have := ih (n / 10) (w - 1) (by omega) hdiv
      simp only [numDigitsGo, if_neg h]
      omega

theorem numDigits_le (n w : Nat) (hw : 0 < w) (hn : n < 10 ^ w) : numDigits n ≤ w :=
  numDigitsGo_le n n w hw hn

theorem zfill_eq_padDigits (w n : Nat) (hw : 0 < w) (hn : n < 10 ^ w) :
    zfill w n = padDigits w n := by
  unfold zfill
  rw [Nat.max_eq_left (numDigits_le n w hw hn)]

theorem zfill_length (w n : Nat) (hw : 0 < w) (hn : n < 10 ^ w) :
    (zfill w n).length = w := by
  rw [zfill_eq_padDigits w n hw hn, padDigits_length]

theorem digitChar_toNat (d : Nat) (hd : d < 10) : (digitChar d).toNat = 48 + d := by
  interval_cases d <;> rfl

theorem lexLt_cons_of_lt {a b : Char} (x y : List Char) (h : a.toNat < b.toNat) :
    lexLt (a :: x) (b :: y) = true := by
  simp [lexLt, h]

theorem lexLt_cons_same (c : Char) (x y : List Char) :
    lexLt (c :: x) (c :: y) = lexLt x y := by
  simp [lexLt]

theorem lexLt_append_same (p x y : List Char) :
    lexLt (p ++ x) (p ++ y) = lexLt x y := by
  induction p with
  | nil => rfl
  | cons c p ih => simpa [List.cons_append, lexLt_cons_same] using ih

theorem lexLt_append_of_lt (x : List Char) (y u v : List Char)
    (hlen : x.length = y.length) (h : lexLt x y = true) :
    lexLt (x ++ u) (y ++ v) = true := by
  induction x generalizing y with
  | nil =>
    cases y with
    | nil => simp [lexLt] at h
    | cons b bs => simp at hlen
  | cons a as ih =>
    cases y with
    | nil => simp at hlen
    | cons b bs =>
      by_cases hab : a.toNat < b.toNat
      · simpa [List.cons_append] using lexLt_cons_of_lt (as ++ u) (bs ++ v) hab
      · by_cases heq : a = b
        · subst heq
          rw [lexLt_cons_same] at h
          simp only [List.cons_append, lexLt_cons_same]
          exact ih bs (by simpa using hlen) h
        · simp [lexLt, hab, heq] at h

theorem padDigits_lexLt (w : Nat) : ∀ a b : Nat, a < b → b < 10 ^ w →
    lexLt (padDigits w a) (padDigits w b) = true := by
  induction w with
  | zero =>
    intro a b hab hb
    simp only [pow_zero] at hb
    omega
  | succ w ih =>
    intro a b hab hb
    have hpow : 0 < 10 ^ w := Nat.pos_pow_of_pos w (by norm_num)
    have hbq : b / 10 ^ w < 10 := by
      rw [Nat.div_lt_iff_lt_mul hpow]
      have hm : 10 ^ (w + 1) = 10 ^ w * 10 := by ring
      omega
    have haq : a / 10 ^ w ≤ b / 10 ^ w := Nat.div_le_div_right (le_of_lt hab)
    rcases lt_or_eq_of_le haq with hlt | heq
    · simp only [padDigits]
      apply lexLt_cons_of_lt
      rw [digitChar_toNat _ (lt_of_le_of_lt haq hbq), digitChar_toNat _ hbq]
      omega
    · simp only [padDigits]
      rw [heq, lexLt_cons_same]
      apply ih
      · have hsum : 10 ^ w * (a / 10 ^ w) + a % 10 ^ w <
            10 ^ w * (b / 10 ^ w) + b % 10 ^ w := by
          rw [Nat.div_add_mod, Nat.div_add_mod]
          exact hab
        rw [heq] at hsum
        exact Nat.lt_of_add_lt_add_left hsum
      · exact Nat.mod_lt _ hpow

theorem zfill_lexLt (w a b : Nat) (hw : 0 < w) (hab : a < b) (hb : b < 10 ^ w) :
    lexLt (zfill w a) (zfill w b) = true := by
  rw [zfill_eq_padDigits w a hw (lt_trans hab hb), zfill_eq_padDigits w b hw hb]
  exact padDigits_lexLt w a b hab hb

theorem daysInMonth_le_31 (y m : Nat) : daysInMonth y m ≤ 31 := by
  unfold daysInMonth
  split <;> (try split) <;> omega

theorem daysInMonth_pos (y m : Nat) (h1 : 1 ≤ m) (h2 : m ≤ 12) :
    0 < daysInMonth y m := by
  interval_cases m <;> cases hy : isLeap y <;> simp [daysInMonth, hy]

theorem leapsBefore_succ (n : Nat) :
    leapsBefore (n + 1) = leapsBefore n + (if isLeap (n + 1) then 1 else 0) := by
  have h4 := Nat.succ_div n 4
  have h100 := Nat.succ_div n 100
  have h400 := Nat.succ_div n 400
  have hle : n / 100 ≤ n / 4 := Nat.div_le_div_left (by norm_num) (by norm_num)
  have hmod : ∀ k x : Nat, 0 < k → (k ∣ x ↔ x % k = 0) := by
    intro k x hk
    exact Nat.dvd_iff_mod_eq_zero
  unfold leapsBefore
  by_cases d4 : (4 : Nat) ∣ (n + 1)
  · by_cases d100 : (100 : Nat) ∣ (n + 1)
    · by_cases d400 : (400 : Nat) ∣ (n + 1)
      · have hl : isLeap (n + 1) = true := by
          have e400 : (n + 1) % 400 = 0 := ((hmod 400 (n + 1) (by norm_num)).mp d400)
          simp [isLeap, e400]
        rw [h4, h100, h400]
        simp only [if_pos d4, if_pos d100, if_pos d400, hl, if_pos]
        omega
      · have hl : isLeap (n + 1) = false := by
          have e100 : (n + 1) % 100 = 0 := ((hmod 100 (n + 1) (by norm_num)).mp d100)
          have e400 : ¬((n + 1) % 400 = 0) := fun hc =>
            d400 ((hmod 400 (n + 1) (by norm_num)).mpr hc)
          simp [isLeap, e100, e400]
        rw [h4, h100, h400]
        simp only [if_pos d4, if_pos d100, if_neg d400, hl, if_neg]
        simp only [Bool.false_eq_true, if_false]
        omega
    · have d400 : ¬(400 : Nat) ∣ (n + 1) := fun hc =>
        d100 (dvd_trans (by norm_num) hc)
      have hl : isLeap (n + 1) = true := by
        have e4 : (n + 1) % 4 = 0 := ((hmod 4 (n + 1) (by norm_num)).mp d4)
        have e100 : ¬((n + 1) % 100 = 0) := fun hc =>
          d100 ((hmod 100 (n + 1) (by norm_num)).mpr hc)
        simp [isLeap, e4, e100]
      rw [h4, h100, h400]
      simp only [if_pos d4, if_neg d100, if_neg d400, hl, if_pos]
      omega
  · have d100 : ¬(100 : Nat) ∣ (n + 1) := fun hc =>
      d4 (dvd_trans (by norm_num) hc)
    have d400 : ¬(400 : Nat) ∣ (n + 1) := fun hc =>
      d100 (dvd_trans (by norm_num) hc)
    have hl : isLeap (n + 1) = false := by
      have e4 : ¬((n + 1) % 4 = 0) := fun hc =>
        d4 ((hmod 4 (n + 1) (by norm_num)).mpr hc)
      have e400 : ¬((n + 1) % 400 = 0) := fun hc =>
        d400 ((hmod 400 (n + 1) (by norm_num)).mpr hc)
      simp [isLeap, e4, e400]
    rw [h4, h100, h400]
    simp only [if_neg d4, if_neg d100, if_neg d400, hl]
    simp only [Bool.false_eq_true, if_false]
    omega

theorem daysBeforeMonth_succ (y m : Nat) (h1 : 1 ≤ m) (h2 : m ≤ 11) :
    daysBeforeMonth y (m + 1) = daysBeforeMonth y m + daysInMonth y m := by
  interval_cases m <;> cases hy : isLeap y <;>
    simp [daysBeforeMonth, daysInMonth, hy]

theorem rataDie_dateAddDay (t : Date) (hv : validDate t.y t.m t.d = true) :
    rataDie (dateAddDay t) = rataDie t + 1 := by
  obtain ⟨y, m, d⟩ := t
  simp only [validDate, Bool.and_eq_true, decide_eq_true_eq] at hv
  obtain ⟨⟨⟨⟨⟨hy1, hy2⟩, hm1⟩, hm2⟩, hd1⟩, hd2⟩ := hv
  unfold dateAddDay
  by_cases hlt : d < daysInMonth y m
  · simp only [hlt, if_pos]
    simp only [rataDie]
    omega
  · simp only [hlt, if_false]
    have hdm : d = daysInMonth y m := by omega
    by_cases hm : m < 12
    · simp only [hm, if_pos]
      simp only [rataDie]
      have hsucc := daysBeforeMonth_succ y m hm1 (by omega)
      omega
    · simp only [hm, if_false]
      have hm12 : m = 12 := by omega
      subst hm12
      obtain ⟨y0, rfl⟩ : ∃ y0, y = y0 + 1 := ⟨y - 1, by omega⟩
      have hls := leapsBefore_succ y0
      have hd31 : d = 31 := by
        simpa [daysInMonth] using hdm
      subst hd31
      cases hy : isLeap (y0 + 1) <;>
        simp [hy, rataDie, daysBeforeMonth, leapsBefore_succ] at hls ⊢ <;>
        omega

theorem dateAddDay_valid (t : Date) (hv : validDate t.y t.m t.d = true)
    (hmax : ¬(t.y = 9999 ∧ t.m = 12 ∧ t.d = 31)) :
    validDate (dateAddDay t).y (dateAddDay t).m (dateAddDay t).d = true := by
  obtain ⟨y, m, d⟩ := t
  simp only [validDate, Bool.and_eq_true, decide_eq_true_eq] at hv
  obtain ⟨⟨⟨⟨⟨hy1, hy2⟩, hm1⟩, hm2⟩, hd1⟩, hd2⟩ := hv
  unfold dateAddDay
  by_cases hlt : d < daysInMonth y m
  · simp only [hlt, if_pos]
    simp only [validDate, Bool.and_eq_true, decide_eq_true_eq]
    omega
  · simp only [hlt, if_false]
    by_cases hm : m < 12
    · simp only [hm, if_pos]
      have hpos := daysInMonth_pos y (m + 1) (by omega) (by omega)
      simp only [validDate, Bool.and_eq_true, decide_eq_true_eq]
      omega
    · simp only [hm, if_false]
      have hm12 : m = 12 := by omega
      subst hm12
      have hdm : d = 31 := by
        have : daysInMonth y 12 = 31 := rfl
        omega
      subst hdm
      have hy9 : y ≠ 9999 := by
        intro hc
        exact hmax ⟨hc, rfl, rfl⟩
      simp only [validDate, Bool.and_eq_true, decide_eq_true_eq]
      have : daysInMonth (y + 1) 1 = 31 := rfl
      omega

theorem toText_two (y m : Nat) :
    UpdateDate.toText [y, m] = zfill 4 y ++ '-' :: zfill 2 m := rfl

theorem toText_three (y m d : Nat) :
    UpdateDate.toText [y, m, d] =
      zfill 4 y ++ '-' :: (zfill 2 m ++ '-' :: zfill 2 d) := rfl

theorem toText_four (y m d h : Nat) :
    UpdateDate.toText [y, m, d, h] =
      zfill 4 y ++ '-' :: (zfill 2 m ++ '-' :: (zfill 2 d ++ '-' :: zfill 2 h)) := rfl

theorem toText_five (y m d h s : Nat) :
    UpdateDate.toText [y, m, d, h, s] =
      zfill 4 y ++ '-' :: (zfill 2 m ++ '-' ::
        (zfill 2 d ++ '-' :: (zfill 2 h ++ '-' :: zfill 6 s))) := by
  show joinSep _ _ = _
  simp [string_values, string_values_go, componentText, joinSep]

theorem for_comparison_five (y m d h s : Nat) :
    UpdateDate.for_comparison [y, m, d, h, s] =
      zfill 4 y ++ '-' :: (zfill 2 m ++ '-' ::
        (zfill 2 d ++ '-' :: (zfill 2 h ++ '-' :: zfill 6 (s + 1)))) := by
  show joinSep _ _ = _
  simp [string_values, string_values_go, componentText, joinSep]

/-- C1: for_comparison() returns the zero-padded rendering unchanged for a
cursor with fewer than five components; for a complete five-component cursor
it returns the rendering with the sequence component incremented by one and
all other components unchanged, so the complete cursor rendered
2021-05-01-03-000005 has a for_comparison() value equal to the published
marker string 2021-05-01-03-000006. -/
theorem for_comparison_off_by_one :
    (∀ values : List Nat, values.length < 5 →
      UpdateDate.for_comparison values = UpdateDate.toText values) ∧
    (∀ y m d hr s : Nat,
      UpdateDate.for_comparison [y, m, d, hr, s] =
        UpdateDate.toText [y, m, d, hr, s + 1]) ∧
    UpdateDate.for_comparison [2021, 5, 1, 3, 5] = txt "2021-05-01-03-000006" := by
  refine ⟨?_, ?_, by decide⟩
  · intro values hlen
    simp [UpdateDate.for_comparison, hlen]
  · intro y m d hr s
    rw [for_comparison_five, toText_five]

/-- Witness for C1 at the incomplete cursor 2021-05. -/
theorem for_comparison_off_by_one_witness :
    [(2021 : Nat), 5].length < 5 ∧
    UpdateDate.for_comparison [2021, 5] = UpdateDate.toText [2021, 5] :=
  ⟨by decide, for_comparison_off_by_one.1 [2021, 5] (by decide)⟩

/-- C10: incrementing a two-component (year-month) cursor yields a complete
cursor whose day and hour components are both 0; finish_hour keeps that day
0, and a subsequent increment — calendar hour arithmetic on the first four
components — fails because day 0 is not a valid calendar day.  Day-level and
hour-level increments are partial and reject a day component of 0. -/
theorem month_increment_day_zero :
    ∀ y m : Nat, ∃ y2 m2 : Nat,
      UpdateDate.increment [y, m] = some [y2, m2, 0, 0, 0] ∧
      UpdateDate.finish_hour [y2, m2, 0, 0, 0] = some [y2, m2, 0, 0] ∧
      UpdateDate.increment [y2, m2, 0, 0] = none ∧
      UpdateDate.increment [y2, m2, 0] = none := by
  intro y m
  by_cases hm : 11 < m
  · exact ⟨y + 1, 1, by simp [UpdateDate.increment, hm], rfl,
      by simp [UpdateDate.increment, validDate], by simp [UpdateDate.increment, validDate]⟩
  · exact ⟨y, m + 1, by simp [UpdateDate.increment, hm], rfl,
      by simp [UpdateDate.increment, validDate], by simp [UpdateDate.increment, validDate]⟩

/-- C2 counterexample: 9999-12-31 names a valid calendar date (the checks of
datetime.date accept it), yet increment() on the 3-component cursor raises
(the OverflowError of datetime date arithmetic) instead of producing any
successor cursor, so the day-increment rule does not hold for every valid
3-component cursor; likewise 2021-02-30-05 is a 4-component cursor on which
increment() raises rather than adding an hour. -/
theorem increment_granularity_counterexample :
    validDate 9999 12 31 = true ∧
    UpdateDate.increment [9999, 12, 31] = none ∧
    (∀ r : List Nat, UpdateDate.increment [9999, 12, 31] ≠ some r) ∧
    UpdateDate.increment [2021, 2, 30, 5] = none := by
  refine ⟨by decide, by decide, ?_, by decide⟩
  intro r hc
  have : UpdateDate.increment [9999, 12, 31] = none := by decide
  rw [this] at hc
  exact Option.noConfusion hc

/-- C2 (amended): increment granularity rules.  A 2-component cursor
increments the month, rolling the year when the month exceeds 11, and pads
day/hour/sequence with zeros (2020-11 renders then as 2020-12-00-00-000000,
2020-12 as 2021-01-00-00-000000).  A 3-component cursor naming a valid
calendar date other than 9999-12-31 advances by exactly one calendar day —
its proleptic Gregorian ordinal grows by one and stays a valid date — and
yields a complete cursor with hour 0 and sequence 0.  A 4-component cursor
naming a valid date and hour, other than 9999-12-31-23, advances by exactly
one calendar hour and resets the sequence to 0.  A complete cursor
increments only its sequence component. -/
theorem increment_granularity_amended :
    (∀ y m : Nat, UpdateDate.increment [y, m] =
      some (if 11 < m then [y + 1, 1, 0, 0, 0] else [y, m + 1, 0, 0, 0])) ∧
    (UpdateDate.toText [2020, 12, 0, 0, 0] = txt "2020-12-00-00-000000" ∧
     UpdateDate.toText [2021, 1, 0, 0, 0] = txt "2021-01-00-00-000000") ∧
    (∀ y m d : Nat, validDate y m d = true → ¬(y = 9999 ∧ m = 12 ∧ d = 31) →
      UpdateDate.increment [y, m, d] =
        some [(dateAddDay ⟨y, m, d⟩).y, (dateAddDay ⟨y, m, d⟩).m,
          (dateAddDay ⟨y, m, d⟩).d, 0, 0] ∧
      rataDie (dateAddDay ⟨y, m, d⟩) = rataDie ⟨y, m, d⟩ + 1 ∧
      validDate (dateAddDay ⟨y, m, d⟩).y (dateAddDay ⟨y, m, d⟩).m
        (dateAddDay ⟨y, m, d⟩).d = true) ∧
    (∀ y m d hr : Nat, validDate y m d = true → hr ≤ 23 →
        ¬(y = 9999 ∧ m = 12 ∧ d = 31 ∧ hr = 23) →
      UpdateDate.increment [y, m, d, hr] =
        some [(dtAddHour ⟨y, m, d⟩ hr).1.y, (dtAddHour ⟨y, m, d⟩ hr).1.m,
          (dtAddHour ⟨y, m, d⟩ hr).1.d, (dtAddHour ⟨y, m, d⟩ hr).2, 0] ∧
      rataDie (dtAddHour ⟨y, m, d⟩ hr).1 * 24 + (dtAddHour ⟨y, m, d⟩ hr).2 =
        rataDie ⟨y, m, d⟩ * 24 + hr + 1) ∧
    (∀ y m d hr s : Nat,
      UpdateDate.increment [y, m, d, hr, s] = some [y, m, d, hr, s + 1]) ∧
    (UpdateDate.increment [2020, 11] = some [2020, 12, 0, 0, 0] ∧
     UpdateDate.increment [2020, 12] = some [2021, 1, 0, 0, 0] ∧
     UpdateDate.increment [2020, 2, 28, 23] = some [2020, 2, 29, 0, 0] ∧
     UpdateDate.increment [2019, 2, 28, 23] = some [2019, 3, 1, 0, 0]) := by
  refine ⟨?_, ⟨by decide, by decide⟩, ?_, ?_, ?_, by decide, by decide, by decide, by decide⟩
  · intro y m
    by_cases hm : 11 < m <;> simp [UpdateDate.increment, hm]
  · intro y m d hv hmax
    have hb : (y == 9999 && m == 12 && d == 31) = false := by
      cases hcc : (y == 9999 && m == 12 && d == 31)
      · rfl
      · simp only [Bool.and_eq_true, beq_iff_eq] at hcc
        exact absurd ⟨hcc.1.1, hcc.1.2, hcc.2⟩ hmax
    refine ⟨by simp [UpdateDate.increment, hv, hb], rataDie_dateAddDay ⟨y, m, d⟩ hv,
      dateAddDay_valid ⟨y, m, d⟩ hv hmax⟩
  · intro y m d hr hv hhr hmax
    have hb : (y == 9999 && m == 12 && d == 31 && hr == 23) = false := by
      cases hcc : (y == 9999 && m == 12 && d == 31 && hr == 23)
      · rfl
      · simp only [Bool.and_eq_true, beq_iff_eq] at hcc
        exact absurd ⟨hcc.1.1.1, hcc.1.1.2, hcc.1.2, hcc.2⟩ hmax
    refine ⟨by simp [UpdateDate.increment, hv, hhr, hb], ?_⟩
    unfold dtAddHour
    by_cases hlt : hr < 23
    · simp only [hlt, if_pos]
      omega
    · have h23 : hr = 23 := by omega
      subst h23
      simp only [lt_irrefl, if_false]
      rw [rataDie_dateAddDay ⟨y, m, d⟩ hv]
      ring
  · intro y m d hr s
    simp [UpdateDate.increment]

/-- Witness for C2 day and hour rules at the concrete valid date
2021-04-30 (which rolls into the next month). -/
theorem increment_granularity_amended_witness :
    validDate 2021 4 30 = true ∧
    (UpdateDate.increment [2021, 4, 30] =
        some [(dateAddDay ⟨2021, 4, 30⟩).y, (dateAddDay ⟨2021, 4, 30⟩).m,
          (dateAddDay ⟨2021, 4, 30⟩).d, 0, 0] ∧
      rataDie (dateAddDay ⟨2021, 4, 30⟩) = rataDie ⟨2021, 4, 30⟩ + 1 ∧
      validDate (dateAddDay ⟨2021, 4, 30⟩).y (dateAddDay ⟨2021, 4, 30⟩).m
        (dateAddDay ⟨2021, 4, 30⟩).d = true) :=
  ⟨by decide, increment_granularity_amended.2.2.1 2021 4 30 (by decide) (by decide)⟩

/-- The common step of the monotonicity proof: two renderings that agree on
a prefix p and then hold the same-width zero-padded components a < b compare
strictly, whatever follows. -/
theorem lexLt_component (p : List Char) (w a b : Nat) (u v : List Char)
    (hw : 0 < w) (hab : a < b) (hb : b < 10 ^ w) :
    lexLt (p ++ (zfill w a ++ u)) (p ++ (zfill w b ++ v)) = true := by
  rw [lexLt_append_same]
  exact lexLt_append_of_lt _ _ _ _
    (by rw [zfill_length w a hw (lt_trans hab hb), zfill_length w b hw hb])
    (zfill_lexLt w a b hw hab hb)

theorem fitsWidths_five (a b c d e : Nat) (h : fitsWidths [a, b, c, d, e] = true) :
    a < 10000 ∧ b < 100 ∧ c < 100 ∧ d < 100 ∧ e < 1000000 := by
  simp [fitsWidths, fitsWidthsGo] at h
  omega

/-- C3 counterexample: the two-component cursor 9999-12 (no day or hour
component, so the claim's validity side conditions hold) increments to
10000-01-00-00-000000, whose year no longer fits the four-digit width, and
the rendering after the increment sorts strictly BELOW the rendering before
it under the lexicographic string order. -/
theorem increment_monotonic_counterexample :
    UpdateDate.increment [9999, 12] = some [10000, 1, 0, 0, 0] ∧
    UpdateDate.toText [9999, 12] = txt "9999-12" ∧
    UpdateDate.toText [10000, 1, 0, 0, 0] = txt "10000-01-00-00-000000" ∧
    lexLt (UpdateDate.toText [9999, 12])
      (UpdateDate.toText [10000, 1, 0, 0, 0]) = false :=
  ⟨by decide, by decide, by decide, by decide⟩

/-- C3 (amended): whenever increment() succeeds and every component of the
incremented cursor still fits its fixed rendering width (year below 10^4,
month/day/hour below 10^2, sequence below 10^6 — the fixed widths the
encoding relies on), the zero-padded rendering after the increment sorts
strictly greater under the lexicographic string order than before it. -/
theorem increment_monotonic_amended :
    ∀ values values' : List Nat,
      UpdateDate.increment values = some values' →
      fitsWidths values' = true →
      lexLt (UpdateDate.toText values) (UpdateDate.toText values') = true := by
  intro values values' hinc hfit
  rcases values with _ | ⟨y, _ | ⟨m, _ | ⟨d, _ | ⟨hr, _ | ⟨s, _ | ⟨x, rest⟩⟩⟩⟩⟩⟩
  · rw [show UpdateDate.increment [] = none from rfl] at hinc
    exact Option.noConfusion hinc
  · rw [show UpdateDate.increment [y] = none from rfl] at hinc
    exact Option.noConfusion hinc
  · -- two components: month increment
    by_cases hm : 11 < m
    · simp only [UpdateDate.increment, hm, if_true, Option.some.injEq] at hinc
      subst hinc
      obtain ⟨hb0, hb1, hb2, hb3, hb4⟩ := fitsWidths_five _ _ _ _ _ hfit
      rw [toText_two, toText_five]
      have e1 : zfill 4 y ++ '-' :: zfill 2 m =
          [] ++ (zfill 4 y ++ ('-' :: zfill 2 m)) := by simp
      have e2 : zfill 4 (y + 1) ++ '-' :: (zfill 2 1 ++ '-' ::
            (zfill 2 0 ++ '-' :: (zfill 2 0 ++ '-' :: zfill 6 0))) =
          [] ++ (zfill 4 (y + 1) ++ ('-' :: (zfill 2 1 ++ '-' ::
            (zfill 2 0 ++ '-' :: (zfill 2 0 ++ '-' :: zfill 6 0))))) := by simp
      rw [e1, e2]
      exact lexLt_component [] 4 y (y + 1) _ _ (by norm_num) (by omega) (by omega)
    · simp only [UpdateDate.increment, hm, if_false, Option.some.injEq] at hinc
      subst hinc
      obtain ⟨hb0, hb1, hb2, hb3, hb4⟩ := fitsWidths_five _ _ _ _ _ hfit
      rw [toText_two, toText_five]
      have e1 : zfill 4 y ++ '-' :: zfill 2 m =
          (zfill 4 y ++ ['-']) ++ (zfill 2 m ++ []) := by simp
      have e2 : zfill 4 y ++ '-' :: (zfill 2 (m + 1) ++ '-' ::
            (zfill 2 0 ++ '-' :: (zfill 2 0 ++ '-' :: zfill 6 0))) =
          (zfill 4 y ++ ['-']) ++ (zfill 2 (m + 1) ++ ('-' ::
            (zfill 2 0 ++ '-' :: (zfill 2 0 ++ '-' :: zfill 6 0)))) := by simp
      rw [e1, e2]
      exact lexLt_component _ 2 m (m + 1) _ _ (by norm_num) (by omega) (by omega)
  · -- three components: day increment
    by_cases hv : validDate y m d = true
    · by_cases hmax : (y == 9999 && m == 12 && d == 31) = true
      · simp only [UpdateDate.increment, hv, if_true, hmax, if_false] at hinc
        exact Option.noConfusion hinc
      · rw [Bool.not_eq_true] at hmax
        simp only [UpdateDate.increment, hv, if_true, hmax, Bool.false_eq_true,
          if_false, Option.some.injEq] at hinc
        subst hinc
        have hvp := hv
        simp only [validDate, Bool.and_eq_true, decide_eq_true_eq] at hvp
        obtain ⟨⟨⟨⟨⟨hy1, hy2⟩, hm1⟩, hm2⟩, hd1⟩, hd2⟩ := hvp
        by_cases hdlt : d < daysInMonth y m
        · have ht : dateAddDay ⟨y, m, d⟩ = ⟨y, m, d + 1⟩ := by
            simp [dateAddDay, hdlt]
          rw [ht]
          show lexLt (UpdateDate.toText [y, m, d])
            (UpdateDate.toText [y, m, d + 1, 0, 0]) = true
          rw [toText_three, toText_five]
          have e1 : zfill 4 y ++ '-' :: (zfill 2 m ++ '-' :: zfill 2 d) =
              (zfill 4 y ++ '-' :: (zfill 2 m ++ ['-'])) ++ (zfill 2 d ++ []) := by
            simp
          have e2 : zfill 4 y ++ '-' :: (zfill 2 m ++ '-' :: (zfill 2 (d + 1) ++
                '-' :: (zfill 2 0 ++ '-' :: zfill 6 0))) =
              (zfill 4 y ++ '-' :: (zfill 2 m ++ ['-'])) ++ (zfill 2 (d + 1) ++
                ('-' :: (zfill 2 0 ++ '-' :: zfill 6 0))) := by
            simp
          rw [e1, e2]
          have h31 := daysInMonth_le_31 y m
          exact lexLt_component _ 2 d (d + 1) _ _ (by norm_num) (by omega) (by omega)
        · by_cases hm12 : m < 12
          · have ht : dateAddDay ⟨y, m, d⟩ = ⟨y, m + 1, 1⟩ := by
              simp [dateAddDay, hdlt, hm12]
            rw [ht]
            show lexLt (UpdateDate.toText [y, m, d])
              (UpdateDate.toText [y, m + 1, 1, 0, 0]) = true
            rw [toText_three, toText_five]
            have e1 : zfill 4 y ++ '-' :: (zfill 2 m ++ '-' :: zfill 2 d) =
                (zfill 4 y ++ ['-']) ++ (zfill 2 m ++ ('-' :: zfill 2 d)) := by
              simp
            have e2 : zfill 4 y ++ '-' :: (zfill 2 (m + 1) ++ '-' :: (zfill 2 1 ++
                  '-' :: (zfill 2 0 ++ '-' :: zfill 6 0))) =
                (zfill 4 y ++ ['-']) ++ (zfill 2 (m + 1) ++ ('-' :: (zfill 2 1 ++
                  '-' :: (zfill 2 0 ++ '-' :: zfill 6 0)))) := by
              simp
            rw [e1, e2]
            exact lexLt_component _ 2 m (m + 1) _ _ (by norm_num) (by omega) (by omega)
          · have ht : dateAddDay ⟨y, m, d⟩ = ⟨y + 1, 1, 1⟩ := by
              simp [dateAddDay, hdlt, hm12]
            rw [ht]
            show lexLt (UpdateDate.toText [y, m, d])
              (UpdateDate.toText [y + 1, 1, 1, 0, 0]) = true
            have hmeq : m = 12 := by omega
            have hy9 : y ≠ 9999 := by
              intro hc
              subst hc
              subst hmeq
              have hdeq : d = 31 := by
                have : daysInMonth 9999 12 = 31 := rfl
                omega
              subst hdeq
              simp at hmax
            rw [toText_three, toText_five]
            have e1 : zfill 4 y ++ '-' :: (zfill 2 m ++ '-' :: zfill 2 d) =
                [] ++ (zfill 4 y ++ ('-' :: (zfill 2 m ++ '-' :: zfill 2 d))) := by
              simp
            have e2 : zfill 4 (y + 1) ++ '-' :: (zfill 2 1 ++ '-' :: (zfill 2 1 ++
                  '-' :: (zfill 2 0 ++ '-' :: zfill 6 0))) =
                [] ++ (zfill 4 (y + 1) ++ ('-' :: (zfill 2 1 ++ '-' :: (zfill 2 1 ++
                  '-' :: (zfill 2 0 ++ '-' :: zfill 6 0))))) := by
              simp
            rw [e1, e2]
            exact lexLt_component [] 4 y (y + 1) _ _ (by norm_num) (by omega) (by omega)
    · rw [Bool.not_eq_true] at hv
      simp only [UpdateDate.increment, hv, Bool.false_eq_true, if_false] at hinc
      exact Option.noConfusion hinc
  · -- four components: hour increment
    by_cases hv : (validDate y m d && decide (hr ≤ 23)) = true
    · by_cases hmax : (y == 9999 && m == 12 && d == 31 && hr == 23) = true
      · simp only [UpdateDate.increment, hv, if_true, hmax, if_false] at hinc
        exact Option.noConfusion hinc
      · rw [Bool.not_eq_true] at hmax
        simp only [UpdateDate.increment, hv, if_true, hmax, Bool.false_eq_true,
          if_false, Option.some.injEq] at hinc
        subst hinc
        have hvp := hv
        simp only [validDate, Bool.and_eq_true, decide_eq_true_eq] at hvp
        obtain ⟨⟨⟨⟨⟨⟨hy1, hy2⟩, hm1⟩, hm2⟩, hd1⟩, hd2⟩, hhr⟩ := hvp
        by_cases hlt : hr < 23
        · have ht : dtAddHour ⟨y, m, d⟩ hr = (⟨y, m, d⟩, hr + 1) := by
            simp [dtAddHour, hlt]
          rw [ht]
          show lexLt (UpdateDate.toText [y, m, d, hr])
            (UpdateDate.toText [y, m, d, hr + 1, 0]) = true
          rw [toText_four, toText_five]
          have e1 : zfill 4 y ++ '-' :: (zfill 2 m ++ '-' :: (zfill 2 d ++ '-' ::
                zfill 2 hr)) =
              (zfill 4 y ++ '-' :: (zfill 2 m ++ '-' :: (zfill 2 d ++ ['-']))) ++
                (zfill 2 hr ++ []) := by
            simp
          have e2 : zfill 4 y ++ '-' :: (zfill 2 m ++ '-' :: (zfill 2 d ++ '-' ::
                (zfill 2 (hr + 1) ++ '-' :: zfill 6 0))) =
              (zfill 4 y ++ '-' :: (zfill 2 m ++ '-' :: (zfill 2 d ++ ['-']))) ++
                (zfill 2 (hr + 1) ++ ('-' :: zfill 6 0)) := by
            simp
          rw [e1, e2]
          exact lexLt_component _ 2 hr (hr + 1) _ _ (by norm_num) (by omega) (by omega)
        · have hr23 : hr = 23 := by omega
          subst hr23
          have ht0 : dtAddHour ⟨y, m, d⟩ 23 = (dateAddDay ⟨y, m, d⟩, 0) := by
            simp [dtAddHour]
          rw [ht0]
          by_cases hdlt : d < daysInMonth y m
          · have ht : dateAddDay ⟨y, m, d⟩ = ⟨y, m, d + 1⟩ := by
              simp [dateAddDay, hdlt]
            rw [ht]
            show lexLt (UpdateDate.toText [y, m, d, 23])
              (UpdateDate.toText [y, m, d + 1, 0, 0]) = true
            rw [toText_four, toText_five]
            have e1 : zfill 4 y ++ '-' :: (zfill 2 m ++ '-' :: (zfill 2 d ++ '-' ::
                  zfill 2 23)) =
                (zfill 4 y ++ '-' :: (zfill 2 m ++ ['-'])) ++ (zfill 2 d ++
                  ('-' :: zfill 2 23)) := by
              simp
            have e2 : zfill 4 y ++ '-' :: (zfill 2 m ++ '-' :: (zfill 2 (d + 1) ++
                  '-' :: (zfill 2 0 ++ '-' :: zfill 6 0))) =
                (zfill 4 y ++ '-' :: (zfill 2 m ++ ['-'])) ++ (zfill 2 (d + 1) ++
                  ('-' :: (zfill 2 0 ++ '-' :: zfill 6 0))) := by
              simp
            rw [e1, e2]
            have h31 := daysInMonth_le_31 y m
            exact lexLt_component _ 2 d (d + 1) _ _ (by norm_num) (by omega) (by omega)
          · by_cases hm12 : m < 12
            · have ht : dateAddDay ⟨y, m, d⟩ = ⟨y, m + 1, 1⟩ := by
                simp [dateAddDay, hdlt, hm12]
              rw [ht]
              show lexLt (UpdateDate.toText [y, m, d, 23])
                (UpdateDate.toText [y, m + 1, 1, 0, 0]) = true
              rw [toText_four, toText_five]
              have e1 : zfill 4 y ++ '-' :: (zfill 2 m ++ '-' :: (zfill 2 d ++ '-' ::
                    zfill 2 23)) =
                  (zfill 4 y ++ ['-']) ++ (zfill 2 m ++ ('-' :: (zfill 2 d ++ '-' ::
                    zfill 2 23))) := by
                simp
              have e2 : zfill 4 y ++ '-' :: (zfill 2 (m + 1) ++ '-' :: (zfill 2 1 ++
                    '-' :: (zfill 2 0 ++ '-' :: zfill 6 0))) =
                  (zfill 4 y ++ ['-']) ++ (zfill 2 (m + 1) ++ ('-' :: (zfill 2 1 ++
                    '-' :: (zfill 2 0 ++ '-' :: zfill 6 0)))) := by
                simp
              rw [e1, e2]
              exact lexLt_component _ 2 m (m + 1) _ _ (by norm_num) (by omega)
                (by omega)
            · have ht : dateAddDay ⟨y, m, d⟩ = ⟨y + 1, 1, 1⟩ := by
                simp [dateAddDay, hdlt, hm12]
              rw [ht]
              show lexLt (UpdateDate.toText [y, m, d, 23])
                (UpdateDate.toText [y + 1, 1, 1, 0, 0]) = true
              have hmeq : m = 12 := by omega
              have hy9 : y ≠ 9999 := by
                intro hc
                subst hc
                subst hmeq
                have hdeq : d = 31 := by
                  have : daysInMonth 9999 12 = 31 := rfl
                  omega
                subst hdeq
                simp at hmax
              rw [toText_four, toText_five]
              have e1 : zfill 4 y ++ '-' :: (zfill 2 m ++ '-' :: (zfill 2 d ++ '-' ::
                    zfill 2 23)) =
                  [] ++ (zfill 4 y ++ ('-' :: (zfill 2 m ++ '-' :: (zfill 2 d ++
                    '-' :: zfill 2 23)))) := by
                simp
              have e2 : zfill 4 (y + 1) ++ '-' :: (zfill 2 1 ++ '-' :: (zfill 2 1 ++
                    '-' :: (zfill 2 0 ++ '-' :: zfill 6 0))) =
                  [] ++ (zfill 4 (y + 1) ++ ('-' :: (zfill 2 1 ++ '-' :: (zfill 2 1 ++
                    '-' :: (zfill 2 0 ++ '-' :: zfill 6 0))))) := by
                simp
              rw [e1, e2]
              exact lexLt_component [] 4 y (y + 1) _ _ (by norm_num) (by omega)
                (by omega)
    · rw [Bool.not_eq_true] at hv
      simp only [UpdateDate.increment, hv, Bool.false_eq_true, if_false] at hinc
      exact Option.noConfusion hinc
  · -- five components: sequence increment
    simp only [UpdateDate.increment, Option.some.injEq] at hinc
    subst hinc
    obtain ⟨hb0, hb1, hb2, hb3, hb4⟩ := fitsWidths_five _ _ _ _ _ hfit
    rw [toText_five, toText_five]
    have e1 : zfill 4 y ++ '-' :: (zfill 2 m ++ '-' :: (zfill 2 d ++ '-' ::
          (zfill 2 hr ++ '-' :: zfill 6 s))) =
        (zfill 4 y ++ '-' :: (zfill 2 m ++ '-' :: (zfill 2 d ++ '-' ::
          (zfill 2 hr ++ ['-'])))) ++ (zfill 6 s ++ []) := by
      simp
    have e2 : zfill 4 y ++ '-' :: (zfill 2 m ++ '-' :: (zfill 2 d ++ '-' ::
          (zfill 2 hr ++ '-' :: zfill 6 (s + 1)))) =
        (zfill 4 y ++ '-' :: (zfill 2 m ++ '-' :: (zfill 2 d ++ '-' ::
          (zfill 2 hr ++ ['-'])))) ++ (zfill 6 (s + 1) ++ []) := by
      simp
    rw [e1, e2]
    exact lexLt_component _ 6 s (s + 1) _ _ (by norm_num) (by omega) (by omega)
  · rw [show UpdateDate.increment (y :: m :: d :: hr :: s :: x :: rest) = none
      from rfl] at hinc
    exact Option.noConfusion hinc

theorem lexLt_of_prefix (p : List Char) (c : Char) (r : List Char) :
    lexLt p (p ++ c :: r) = true := by
  induction p with
  | nil => rfl
  | cons a as ih => simpa [List.cons_append, lexLt_cons_same] using ih

theorem run_steps_add (stub : List Nat → Bool × Bool) (msrc : List Char)
    (a b : Nat) (s : EngineState) :
    run_steps stub msrc (a + b) s =
      match run_steps stub msrc a s with
      | some (s2, es) =>
        match run_steps stub msrc b s2 with
        | some (s3, es2) => some (s3, es ++ es2)
        | none => none
      | none => none := by
  induction a generalizing s with
  | zero =>
    simp only [Nat.zero_add, run_steps]
    rcases h2 : run_steps stub msrc b s with _ | ⟨s3, es2⟩ <;> simp
  | succ a ih =>
    have hn : a + 1 + b = (a + b) + 1 := by omega
    rw [hn]
    rcases hstep : run_step stub msrc s with ⟨s2, e⟩ | ⟨s2⟩ | _
    · simp only [run_steps, hstep, ih]
      rcases h1 : run_steps stub msrc a s2 with _ | ⟨s3, es⟩
      · simp
      · rcases h2 : run_steps stub msrc b s3 with _ | ⟨s4, es2⟩ <;> simp [h2]
    · simp [run_steps, hstep]
    · simp [run_steps, hstep]

theorem run_steps_compose (stub : List Nat → Bool × Bool) (msrc : List Char)
    (a b : Nat) (s s1 s2 : EngineState) (es1 es2 : List Event)
    (h1 : run_steps stub msrc a s = some (s1, es1))
    (h2 : run_steps stub msrc b s1 = some (s2, es2)) :
    run_steps stub msrc (a + b) s = some (s2, es1 ++ es2) := by
  rw [run_steps_add stub msrc a b s, h1]
  simp only [h2]

theorem run_steps_one (stub : List Nat → Bool × Bool) (msrc : List Char)
    (s s2 : EngineState) (e : Event) (h : run_step stub msrc s = .ok s2 e) :
    run_steps stub msrc 1 s = some (s2, [e]) := by
  simp [run_steps, h]

theorem hour_behind (h s : Nat) (hh : h ≤ 2) :
    behind [2021, 5, 1, h, s] (some marker0) = true := by
  interval_cases h
  · show lexLt (UpdateDate.for_comparison [2021, 5, 1, 0, s]) marker0 = true
    rw [for_comparison_five]
    show lexLt (txt "2021-05-01-0" ++ ('0' :: '-' :: zfill 6 (s + 1)))
      (txt "2021-05-01-0" ++ ('3' :: txt "-000002")) = true
    rw [lexLt_append_same]
    exact lexLt_cons_of_lt _ _ (by decide)
  · show lexLt (UpdateDate.for_comparison [2021, 5, 1, 1, s]) marker0 = true
    rw [for_comparison_five]
    show lexLt (txt "2021-05-01-0" ++ ('1' :: '-' :: zfill 6 (s + 1)))
      (txt "2021-05-01-0" ++ ('3' :: txt "-000002")) = true
    rw [lexLt_append_same]
    exact lexLt_cons_of_lt _ _ (by decide)
  · show lexLt (UpdateDate.for_comparison [2021, 5, 1, 2, s]) marker0 = true
    rw [for_comparison_five]
    show lexLt (txt "2021-05-01-0" ++ ('2' :: '-' :: zfill 6 (s + 1)))
      (txt "2021-05-01-0" ++ ('3' :: txt "-000002")) = true
    rw [lexLt_append_same]
    exact lexLt_cons_of_lt _ _ (by decide)

theorem marker_fixpoint (stub : List Nat → Bool × Bool) (k : Nat) :
    run_steps stub marker0 k
      ⟨[2021, 5, 1, 3, 1], some marker0, UpdateDate.toText [2021, 5, 1, 3, 1]⟩ =
      some (⟨[2021, 5, 1, 3, 1], some marker0, UpdateDate.toText [2021, 5, 1, 3, 1]⟩,
        List.replicate k Event.fetchedMarker) := by
  induction k with
  | zero => rfl
  | succ k ih =>
    have hstep : run_step stub marker0 ⟨[2021, 5, 1, 3, 1], some marker0,
        UpdateDate.toText [2021, 5, 1, 3, 1]⟩ =
        .ok ⟨[2021, 5, 1, 3, 1], some marker0, UpdateDate.toText [2021, 5, 1, 3, 1]⟩
          .fetchedMarker := by
      simp only [run_step]
      rw [show behind [2021, 5, 1, 3, 1] (some marker0) = false from by decide]
      rw [show pyStrip marker0 = marker0 from by decide]
      simp
    simp only [run_steps, hstep, ih]
    rfl

theorem run_steps_succ (stub : List Nat → Bool × Bool) (msrc : List Char)
    (n : Nat) (s s2 s3 : EngineState) (e : Event) (es : List Event)
    (h : run_step stub msrc s = .ok s2 e)
    (h2 : run_steps stub msrc n s2 = some (s3, es)) :
    run_steps stub msrc (n + 1) s = some (s3, e :: es) := by
  have := run_steps_compose stub msrc 1 n s s2 s3 [e] es
    (run_steps_one stub msrc s s2 e h) h2
  rw [show 1 + n = n + 1 from by omega] at this
  simpa using this

theorem seq_walk (stub : List Nat → Bool × Bool) (h eh : Nat) (hh : h ≤ 2)
    (hfound : ∀ t, t < eh →
      (stub [2021, 5, 1, h, t]).1 = true ∨ (stub [2021, 5, 1, h, t]).2 = true)
    (hstop : stub [2021, 5, 1, h, eh] = (false, false)) :
    ∀ j s st, s + j = eh → 1 ≤ j →
      run_steps stub marker0 j ⟨[2021, 5, 1, h, s], some marker0, st⟩ =
        some (⟨[2021, 5, 1, h], some marker0, UpdateDate.toText [2021, 5, 1, h]⟩,
          (List.range' (s + 1) (j - 1)).map
            (fun t => Event.applied (stub [2021, 5, 1, h, t]).1
              (stub [2021, 5, 1, h, t]).2) ++ [Event.exhausted]) := by
  intro j
  induction j with
  | zero =>
    intro s st heq hj
    omega
  | succ j ih =>
    intro s st heq hj
    have hb : behind [2021, 5, 1, h, s] (some marker0) = true := hour_behind h s hh
    have hinc : UpdateDate.increment [2021, 5, 1, h, s] =
        some [2021, 5, 1, h, s + 1] := rfl
    rcases Nat.eq_zero_or_pos j with hj0 | hjpos
    · subst hj0
      have hse : s + 1 = eh := by omega
      have hstub : stub [2021, 5, 1, h, s + 1] = (false, false) := by
        rw [hse]; exact hstop
      have hfh : UpdateDate.finish_hour [2021, 5, 1, h, s + 1] =
          some [2021, 5, 1, h] := rfl
      have hb4 : behind [2021, 5, 1, h] (some marker0) = true := by
        interval_cases h <;> decide
      have hstep : run_step stub marker0 ⟨[2021, 5, 1, h, s], some marker0, st⟩ =
          .ok ⟨[2021, 5, 1, h], some marker0, UpdateDate.toText [2021, 5, 1, h]⟩
            Event.exhausted := by
        simp only [run_step, hb, if_true, hinc, hstub, hfh, hb4,
          Bool.not_false, Bool.and_self, if_true]
      rw [run_steps_one stub marker0 _ _ _ hstep]
      simp [List.range']
    · obtain ⟨j0, rfl⟩ : ∃ j0, j = j0 + 1 := ⟨j - 1, by omega⟩
      have hsj : s + 1 < eh := by omega
      have hfd := hfound (s + 1) hsj
      have hnot : (!(stub [2021, 5, 1, h, s + 1]).1 &&
          !(stub [2021, 5, 1, h, s + 1]).2) = false := by
        rcases hfd with h1 | h1 <;> simp [h1]
      have hstep : run_step stub marker0 ⟨[2021, 5, 1, h, s], some marker0, st⟩ =
          .ok ⟨[2021, 5, 1, h, s + 1], some marker0,
              UpdateDate.toText [2021, 5, 1, h, s + 1]⟩
            (Event.applied (stub [2021, 5, 1, h, s + 1]).1
              (stub [2021, 5, 1, h, s + 1]).2) := by
        simp only [run_step, hb, if_true, hinc, hnot, Bool.false_eq_true, if_false]
      have hrec := ih (s + 1) (UpdateDate.toText [2021, 5, 1, h, s + 1])
        (by omega) (by omega)
      rw [run_steps_succ stub marker0 (j0 + 1) _ _ _ _ _ hstep hrec]
      rw [show j0 + 1 + 1 - 1 = j0 + 1 from rfl, show j0 + 1 - 1 = j0 from rfl]
      rw [List.range'_succ]
      simp

theorem hour_entry (stub : List Nat → Bool × Bool) (h eh : Nat) (hh : h ≤ 2)
    (hfound : ∀ t, t < eh →
      (stub [2021, 5, 1, h, t]).1 = true ∨ (stub [2021, 5, 1, h, t]).2 = true)
    (hstop : stub [2021, 5, 1, h, eh] = (false, false))
    (c0 : List Nat) (st : List Char)
    (hb0 : behind c0 (some marker0) = true)
    (hinc0 : UpdateDate.increment c0 = some [2021, 5, 1, h, 0]) :
    run_steps stub marker0 (eh + 1) ⟨c0, some marker0, st⟩ =
      some (⟨[2021, 5, 1, h], some marker0, UpdateDate.toText [2021, 5, 1, h]⟩,
        hourTrace stub h eh) := by
  rcases Nat.eq_zero_or_pos eh with h0 | hpos
  · subst h0
    have hfh : UpdateDate.finish_hour [2021, 5, 1, h, 0] =
        some [2021, 5, 1, h] := rfl
    have hb4 : behind [2021, 5, 1, h] (some marker0) = true := by
      interval_cases h <;> decide
    have hstep : run_step stub marker0 ⟨c0, some marker0, st⟩ =
        .ok ⟨[2021, 5, 1, h], some marker0, UpdateDate.toText [2021, 5, 1, h]⟩
          Event.exhausted := by
      simp only [run_step, hb0, if_true, hinc0, hstop, hfh, hb4,
        Bool.not_false, Bool.and_self, if_true]
    rw [run_steps_one stub marker0 _ _ _ hstep]
    simp [hourTrace]
  · have hfd0 := hfound 0 hpos
    have hnot : (!(stub [2021, 5, 1, h, 0]).1 && !(stub [2021, 5, 1, h, 0]).2) = false := by
      rcases hfd0 with h1 | h1 <;> simp [h1]
    have hstep : run_step stub marker0 ⟨c0, some marker0, st⟩ =
        .ok ⟨[2021, 5, 1, h, 0], some marker0, UpdateDate.toText [2021, 5, 1, h, 0]⟩
          (Event.applied (stub [2021, 5, 1, h, 0]).1 (stub [2021, 5, 1, h, 0]).2) := by
      simp only [run_step, hb0, if_true, hinc0, hnot, Bool.false_eq_true, if_false]
    have hw := seq_walk stub h eh hh hfound hstop eh 0
      (UpdateDate.toText [2021, 5, 1, h, 0]) (by omega) hpos
    rw [run_steps_succ stub marker0 eh _ _ _ _ _ hstep hw]
    obtain ⟨e0, rfl⟩ : ∃ e0, eh = e0 + 1 := ⟨eh - 1, by omega⟩
    rw [show (0 : Nat) + 1 = 1 from rfl, show e0 + 1 - 1 = e0 from rfl]
    simp [hourTrace, appliedEv, List.range_eq_range', List.range'_succ]

/-- C4 counterexample: starting from the persisted cursor 2021-05 with the
marker fixed at 2021-05-01-03-000002 and every delta fetch answering
not-found (so each hour trivially "eventually yields not-found"), the second
loop pass increments the MONTH, to 2021-06-00-00-000000, exhausts that
nonexistent hour, and the sanity assertion fires: the run dies with
InconsistentServerState at cursor 2021-06-00-00 without ever visiting the
2021-05-01 hours, and run_steps yields no 2-pass trace at all. -/
theorem catch_up_scenario_counterexample :
    UpdateDate.set_value (txt "2021-05") = some [2021, 5] ∧
    UpdateDate.increment [2021, 5] = some [2021, 6, 0, 0, 0] ∧
    run_step (fun _ => (false, false)) marker0
      ⟨[2021, 5], some marker0, txt "2021-05"⟩ =
      .fatalInconsistent ⟨[2021, 6, 0, 0], some marker0, txt "2021-05"⟩ ∧
    run_steps (fun _ => (false, false)) marker0 2 (scenarioInit [2021, 5]) = none :=
  ⟨by decide, by decide, by decide, by decide⟩

/-- C4 (amended): the catch-up scenario holds when the persisted cursor
starts at the 4-component hour cursor 2021-04-30-23 (the hour before the
scenario hours) instead of the month cursor 2021-05.  With the marker fixed
at 2021-05-01-03-000002, a stub that serves each hour h of 2021-05-01 some
finite number e_h of delta pairs before answering not-found for both files
(hours 0..2), and at least one file at sequences 0 and 1 of hour 3, the
engine fetches the marker, walks hours 00, 01 and 02 — each hour ending in
the exhausted transition — applies whatever files the stub reports at every
step, reaches and persists cursor 2021-05-01-03-000001, and from then on
only re-checks the marker, never advancing again. -/
theorem catch_up_scenario_amended :
    ∀ (stub : List Nat → Bool × Bool) (e0 e1 e2 : Nat),
      (∀ t, t < e0 →
        (stub [2021, 5, 1, 0, t]).1 = true ∨ (stub [2021, 5, 1, 0, t]).2 = true) →
      stub [2021, 5, 1, 0, e0] = (false, false) →
      (∀ t, t < e1 →
        (stub [2021, 5, 1, 1, t]).1 = true ∨ (stub [2021, 5, 1, 1, t]).2 = true) →
      stub [2021, 5, 1, 1, e1] = (false, false) →
      (∀ t, t < e2 →
        (stub [2021, 5, 1, 2, t]).1 = true ∨ (stub [2021, 5, 1, 2, t]).2 = true) →
      stub [2021, 5, 1, 2, e2] = (false, false) →
      ((stub [2021, 5, 1, 3, 0]).1 = true ∨ (stub [2021, 5, 1, 3, 0]).2 = true) →
      ((stub [2021, 5, 1, 3, 1]).1 = true ∨ (stub [2021, 5, 1, 3, 1]).2 = true) →
      ∀ k, run_steps stub marker0 (e0 + e1 + e2 + 6 + k)
          (scenarioInit [2021, 4, 30, 23]) =
        some (⟨[2021, 5, 1, 3, 1], some marker0, UpdateDate.toText [2021, 5, 1, 3, 1]⟩,
          [Event.fetchedMarker] ++ (hourTrace stub 0 e0 ++ (hourTrace stub 1 e1 ++
            (hourTrace stub 2 e2 ++ ([appliedEv stub 3 0] ++ ([appliedEv stub 3 1] ++
              List.replicate k Event.fetchedMarker)))))) := by
  intro stub e0 e1 e2 hf0 hs0 hf1 hs1 hf2 hs2 h30 h31 k
  have st1 : run_step stub marker0 (scenarioInit [2021, 4, 30, 23]) =
      .ok ⟨[2021, 4, 30, 23], some marker0, UpdateDate.toText [2021, 4, 30, 23]⟩
        .fetchedMarker := by
    simp only [scenarioInit, run_step]
    rw [show behind [2021, 4, 30, 23] (none : Option (List Char)) = false from rfl]
    rw [show pyStrip marker0 = marker0 from by decide]
    simp
  have w0 := hour_entry stub 0 e0 (by omega) hf0 hs0 [2021, 4, 30, 23]
    (UpdateDate.toText [2021, 4, 30, 23]) (by decide) (by decide)
  have w1 := hour_entry stub 1 e1 (by omega) hf1 hs1 [2021, 5, 1, 0]
    (UpdateDate.toText [2021, 5, 1, 0]) (by decide) (by decide)
  have w2 := hour_entry stub 2 e2 (by omega) hf2 hs2 [2021, 5, 1, 1]
    (UpdateDate.toText [2021, 5, 1, 1]) (by decide) (by decide)
  have hnot30 : (!(stub [2021, 5, 1, 3, 0]).1 && !(stub [2021, 5, 1, 3, 0]).2) = false := by
    rcases h30 with h1 | h1 <;> simp [h1]
  have hnot31 : (!(stub [2021, 5, 1, 3, 1]).1 && !(stub [2021, 5, 1, 3, 1]).2) = false := by
    rcases h31 with h1 | h1 <;> simp [h1]
  have st30 : run_step stub marker0
      ⟨[2021, 5, 1, 2], some marker0, UpdateDate.toText [2021, 5, 1, 2]⟩ =
      .ok ⟨[2021, 5, 1, 3, 0], some marker0, UpdateDate.toText [2021, 5, 1, 3, 0]⟩
        (Event.applied (stub [2021, 5, 1, 3, 0]).1 (stub [2021, 5, 1, 3, 0]).2) := by
    simp only [run_step]
    rw [show behind [2021, 5, 1, 2] (some marker0) = true from by decide]
    rw [show UpdateDate.increment [2021, 5, 1, 2] = some [2021, 5, 1, 3, 0]
      from by decide]
    simp only [hnot30, Bool.false_eq_true, if_true, if_false]
  have st31 : run_step stub marker0
      ⟨[2021, 5, 1, 3, 0], some marker0, UpdateDate.toText [2021, 5, 1, 3, 0]⟩ =
      .ok ⟨[2021, 5, 1, 3, 1], some marker0, UpdateDate.toText [2021, 5, 1, 3, 1]⟩
        (Event.applied (stub [2021, 5, 1, 3, 1]).1 (stub [2021, 5, 1, 3, 1]).2) := by
    simp only [run_step]
    rw [show behind [2021, 5, 1, 3, 0] (some marker0) = true from by decide]
    rw [show UpdateDate.increment [2021, 5, 1, 3, 0] = some [2021, 5, 1, 3, 1]
      from by decide]
    simp only [hnot31, Bool.false_eq_true, if_true, if_false]
  have htot : e0 + e1 + e2 + 6 + k =
      1 + ((e0 + 1) + ((e1 + 1) + ((e2 + 1) + (1 + (1 + k))))) := by omega
  rw [htot]
  refine run_steps_compose stub marker0 1 _ _ _ _ _ _
    (run_steps_one stub marker0 _ _ _ st1) ?_
  refine run_steps_compose stub marker0 (e0 + 1) _ _ _ _ _ _ w0 ?_
  refine run_steps_compose stub marker0 (e1 + 1) _ _ _ _ _ _ w1 ?_
  refine run_steps_compose stub marker0 (e2 + 1) _ _ _ _ _ _ w2 ?_
  refine run_steps_compose stub marker0 1 _ _ _ _ _ _
    (run_steps_one stub marker0 _ _ _ st30) ?_
  refine run_steps_compose stub marker0 1 _ _ _ _ _ _
    (run_steps_one stub marker0 _ _ _ st31) ?_
  exact marker_fixpoint stub k

/-- Witness for C4 with the concrete scenarioStub: one delta pair in each of
hours 0..2, two in hour 3, then one further marker re-check. -/
theorem catch_up_scenario_amended_witness :
    ((∀ t, t < 1 → (scenarioStub [2021, 5, 1, 0, t]).1 = true ∨
        (scenarioStub [2021, 5, 1, 0, t]).2 = true) ∧
      scenarioStub [2021, 5, 1, 0, 1] = (false, false) ∧
      (∀ t, t < 1 → (scenarioStub [2021, 5, 1, 1, t]).1 = true ∨
        (scenarioStub [2021, 5, 1, 1, t]).2 = true) ∧
      scenarioStub [2021, 5, 1, 1, 1] = (false, false) ∧
      (∀ t, t < 1 → (scenarioStub [2021, 5, 1, 2, t]).1 = true ∨
        (scenarioStub [2021, 5, 1, 2, t]).2 = true) ∧
      scenarioStub [2021, 5, 1, 2, 1] = (false, false) ∧
      ((scenarioStub [2021, 5, 1, 3, 0]).1 = true ∨
        (scenarioStub [2021, 5, 1, 3, 0]).2 = true) ∧
      ((scenarioStub [2021, 5, 1, 3, 1]).1 = true ∨
        (scenarioStub [2021, 5, 1, 3, 1]).2 = true)) ∧
    run_steps scenarioStub marker0 (1 + 1 + 1 + 6 + 1)
        (scenarioInit [2021, 4, 30, 23]) =
      some (⟨[2021, 5, 1, 3, 1], some marker0, UpdateDate.toText [2021, 5, 1, 3, 1]⟩,
        [Event.fetchedMarker] ++ (hourTrace scenarioStub 0 1 ++
          (hourTrace scenarioStub 1 1 ++ (hourTrace scenarioStub 2 1 ++
            ([appliedEv scenarioStub 3 0] ++ ([appliedEv scenarioStub 3 1] ++
              List.replicate 1 Event.fetchedMarker)))))) :=
  ⟨⟨by decide, by decide, by decide, by decide, by decide, by decide, by decide,
    by decide⟩,
    catch_up_scenario_amended scenarioStub 1 1 1 (by decide) (by decide) (by decide)
      (by decide) (by decide) (by decide) (by decide) (by decide) 1⟩

theorem increment_length (v c : List Nat) (h : UpdateDate.increment v = some c) :
    c.length = 5 := by
  rcases v with _ | ⟨y, _ | ⟨m, _ | ⟨d, _ | ⟨hr, _ | ⟨s, _ | ⟨x, rest⟩⟩⟩⟩⟩⟩
  · exact Option.noConfusion h
  · exact Option.noConfusion h
  · simp only [UpdateDate.increment] at h
    split at h <;> (injection h with h2; subst h2; rfl)
  · simp only [UpdateDate.increment] at h
    split at h
    · split at h
      · exact Option.noConfusion h
      · injection h with h2
        subst h2
        rfl
    · exact Option.noConfusion h
  · simp only [UpdateDate.increment] at h
    split at h
    · split at h
      · exact Option.noConfusion h
      · injection h with h2
        subst h2
        rfl
    · exact Option.noConfusion h
  · simp only [UpdateDate.increment] at h
    injection h with h2
    subst h2
    rfl
  · exact Option.noConfusion h

/-- C5: whenever a pass of the loop is advancing (the cursor is behind the
cached marker), increment() succeeds, and both the added and the removed
delta file are absent, the engine truncates the incremented cursor to its
first four components; if the truncated cursor's for_comparison() value is
not strictly below the marker the pass fails fatally with
InconsistentServerState and the store file keeps its previous content (the
truncated cursor is not written); otherwise the truncated cursor is
persisted and the pass ends in the exhausted transition, returning control
to the marker comparison. -/
theorem hour_exhaustion_atomic :
    ∀ (stub : List Nat → Bool × Bool) (msrc : List Char) (s : EngineState)
      (c2 : List Nat),
      behind s.cursor s.published = true →
      UpdateDate.increment s.cursor = some c2 →
      stub c2 = (false, false) →
      (behind (c2.take 4) s.published = false →
        run_step stub msrc s = .fatalInconsistent ⟨c2.take 4, s.published, s.stored⟩) ∧
      (behind (c2.take 4) s.published = true →
        run_step stub msrc s =
          .ok ⟨c2.take 4, s.published, UpdateDate.toText (c2.take 4)⟩
            .exhausted) := by
  intro stub msrc s c2 hb hinc hstub
  have hlen := increment_length _ _ hinc
  have hfh : UpdateDate.finish_hour c2 = some (c2.take 4) := by
    simp only [UpdateDate.finish_hour]
    rw [if_pos (by omega)]
  constructor
  · intro hb4
    simp only [run_step, hb, if_true, hinc, hstub, hfh, hb4, Bool.not_false,
      Bool.and_self, if_true, Bool.false_eq_true, if_false]
  · intro hb4
    simp only [run_step, hb, if_true, hinc, hstub, hfh, hb4, Bool.not_false,
      Bool.and_self, if_true]

/-- Witness for C5 at the state that follows hour 2021-05-01-03 being served
no files at all: the truncation to 2021-05-01-04 is no longer behind the
marker, so the pass is fatal and the stored text stays 2021-05-01-03. -/
theorem hour_exhaustion_atomic_witness :
    behind [2021, 5, 1, 3] (some marker0) = true ∧
    UpdateDate.increment [2021, 5, 1, 3] = some [2021, 5, 1, 4, 0] ∧
    (fun _ : List Nat => ((false : Bool), (false : Bool))) [2021, 5, 1, 4, 0] =
      (false, false) ∧
    (behind ([2021, 5, 1, 4, 0].take 4) (some marker0) = false →
      run_step (fun _ => (false, false)) marker0
          ⟨[2021, 5, 1, 3], some marker0, txt "2021-05-01-03"⟩ =
        .fatalInconsistent ⟨[2021, 5, 1, 4, 0].take 4, some marker0,
          txt "2021-05-01-03"⟩) :=
  ⟨by decide, by decide, by decide,
    (hour_exhaustion_atomic (fun _ => (false, false)) marker0
      ⟨[2021, 5, 1, 3], some marker0, txt "2021-05-01-03"⟩ [2021, 5, 1, 4, 0]
      (by decide) (by decide) (by decide)).1⟩

/-- C6: the fetch contract of urlretrieve.  A not-found response makes it
return absent at once — no later response in the script is consulted, so
nothing is retried and no delay is taken — and any finite run of transient
failures followed by a success makes it return the path of the saved file
in the given directory, whose filename is the URL's final path segment.  It
never produces an error outcome for a slash-containing URL. -/
theorem urlretrieve_contract :
    (∀ (rest : List FetchResp) (url directory : List Char), '/' ∈ url →
      urlretrieve (.notFound :: rest) url directory = .absent) ∧
    (∀ (n : Nat) (body : List Char) (rest : List FetchResp)
        (url directory : List Char), '/' ∈ url →
      urlretrieve (List.replicate n .transientError ++ .success body :: rest)
        url directory = .saved (pathJoin directory (lastSegment url))) := by
  constructor
  · intro rest url directory hm
    simp [urlretrieve, hm, urlretrieveGo]
  · intro n body rest url directory hm
    simp only [urlretrieve, hm, if_pos]
    induction n with
    | zero => simp [urlretrieveGo]
    | succ n ih => simpa [List.replicate_succ, urlretrieveGo] using ih

/-- Witness for C6: three transient failures, then success. -/
theorem urlretrieve_contract_witness :
    '/' ∈ txt "http://live.example/2021/05/01/00/x.added.nt.gz" ∧
    urlretrieve (List.replicate 3 .transientError ++ .success (txt "data") :: [])
        (txt "http://live.example/2021/05/01/00/x.added.nt.gz") (txt "/tmp/d") =
      .saved (pathJoin (txt "/tmp/d")
        (lastSegment (txt "http://live.example/2021/05/01/00/x.added.nt.gz"))) :=
  ⟨by decide, urlretrieve_contract.2 3 (txt "data") [] _ _ (by decide)⟩

/-- C7 counterexample: write then read does not return exactly the written
text — read() strips it, so a trailing newline is lost. -/
theorem store_round_trip_counterexample :
    LastUpdateStore.read (LastUpdateStore.reopen
      (LastUpdateStore.write (txt "old") (txt "2021-05\n"))) = txt "2021-05" ∧
    txt "2021-05" ≠ txt "2021-05\n" :=
  ⟨by decide, by decide⟩

/-- C7 (amended): write(text) replaces the file's entire content, and a
subsequent read() — also after closing and reopening the store — returns
the written text with leading and trailing whitespace stripped; it returns
exactly the text whenever the text carries no surrounding whitespace. -/
theorem store_round_trip_amended :
    ∀ content value : List Char,
      LastUpdateStore.write content value = value ∧
      LastUpdateStore.read (LastUpdateStore.reopen
        (LastUpdateStore.write content value)) = pyStrip value ∧
      (pyStrip value = value →
        LastUpdateStore.read (LastUpdateStore.reopen
          (LastUpdateStore.write content value)) = value) := by
  intro content value
  exact ⟨rfl, rfl, fun h => h⟩

/-- Witness for C7 at a cursor text without surrounding whitespace. -/
theorem store_round_trip_amended_witness :
    pyStrip (txt "2021-05-01-03-000001") = txt "2021-05-01-03-000001" ∧
    LastUpdateStore.read (LastUpdateStore.reopen
      (LastUpdateStore.write (txt "x") (txt "2021-05-01-03-000001"))) =
      txt "2021-05-01-03-000001" :=
  ⟨by decide,
    (store_round_trip_amended (txt "x") (txt "2021-05-01-03-000001")).2.2 (by decide)⟩

/-- C8 counterexample: a whitespace-only statement is truthy in Python, so
insert(' ') DOES issue a query — against a store reporting 7 affected
triples it returns 7, not 0 — and insert('') issues no query but returns
None, not 0. -/
theorem insert_delete_empty_counterexample :
    SPARQL.insert store7 (txt " ") = .ok (some 7) ∧
    (Except.ok (some 7) : Except PyErr (Option Nat)) ≠ .ok (some 0) ∧
    SPARQL.insert store7 [] = .ok none ∧
    (Except.ok none : Except PyErr (Option Nat)) ≠ .ok (some 0) := by
  refine ⟨rfl, ?_, rfl, ?_⟩
  · intro h
    injection h with h2
    exact Option.noConfusion h2 (fun h3 => by omega)
  · intro h
    injection h with h2
    exact Option.noConfusion h2

/-- C8 (amended): only the EMPTY statement is a no-op — insert and delete
then issue no query (the result does not depend on the store) and return
None, not 0.  Every non-empty statement, whitespace-only ones included,
issues INSERT of the statement, respectively DELETE with the statement as
both pattern and condition, and returns the affected-triple count the store
reports. -/
theorem insert_delete_amended :
    (∀ store : List Char → StoreResult,
      SPARQL.insert store [] = .ok none ∧ SPARQL.delete store [] = .ok none) ∧
    (∀ (store : List Char → StoreResult) (t : List Char) (j : JValue)
        (msg : List Char) (n : Nat), t ≠ [] →
      store (insertStmt t) = .body (some j) → jPathValue j = .ok (.str msg) →
      extractCount msg = some n → SPARQL.insert store t = .ok (some n)) ∧
    (∀ (store : List Char → StoreResult) (t : List Char) (j : JValue)
        (msg : List Char) (n : Nat), t ≠ [] →
      store (deleteStmt t) = .body (some j) → jPathValue j = .ok (.str msg) →
      extractCount msg = some n → SPARQL.delete store t = .ok (some n)) := by
  refine ⟨?_, ?_, ?_⟩
  · intro store
    exact ⟨rfl, rfl⟩
  · intro store t j msg n ht hs hp he
    simp [SPARQL.insert, ht, SPARQL.query, hs, hp, he, Except.map]
  · intro store t j msg n ht hs hp he
    simp [SPARQL.delete, ht, SPARQL.query, hs, hp, he, Except.map]

/-- Witness for C8 at the whitespace-only statement and the store reporting
7 triples. -/
theorem insert_delete_amended_witness :
    txt " " ≠ ([] : List Char) ∧
    store7 (insertStmt (txt " ")) = .body (some json7) ∧
    jPathValue json7 =
      .ok (.str (txt "Insert into <g>, 7 (or less) triples -- done")) ∧
    extractCount (txt "Insert into <g>, 7 (or less) triples -- done") = some 7 ∧
    SPARQL.insert store7 (txt " ") = .ok (some 7) :=
  ⟨by decide, rfl, rfl, by decide,
    insert_delete_amended.2.1 store7 (txt " ") json7
      (txt "Insert into <g>, 7 (or less) triples -- done") 7
      (by decide) rfl rfl (by decide)⟩

/-- C9 counterexample: a response body that is not valid JSON is as
malformed as a response gets, yet query() raises (json.loads' ValueError is
caught nowhere) instead of returning 0 — so a malformed response CAN abort
the run. -/
theorem query_malformed_counterexample :
    SPARQL.query (fun _ => StoreResult.body none) (txt "q") =
      .error .valueError ∧
    SPARQL.query (fun _ => StoreResult.body none) (txt "q") ≠ .ok 0 := by
  refine ⟨rfl, ?_⟩
  intro h
  rw [show SPARQL.query (fun _ => StoreResult.body none) (txt "q") =
    .error .valueError from rfl] at h
  exact Except.noConfusion h

/-- C9 (amended): query() returns the count captured by the fixed pattern
when it matches the structured callret-0 field, returns 0 when the pattern
is absent, when the field is missing from the JSON shape (KeyError, the one
exception the inner handler catches) and on an HTTP error response; but it
RAISES — aborting the run — on a body that is not valid JSON (ValueError),
on a non-HTTP transport error, on an empty bindings list (IndexError) and
on a wrongly-typed response shape (TypeError). -/
theorem query_contract_amended :
    (∀ (store : List Char → StoreResult) (q : List Char) (j : JValue)
        (msg : List Char) (n : Nat),
      store q = .body (some j) → jPathValue j = .ok (.str msg) →
      extractCount msg = some n → SPARQL.query store q = .ok n) ∧
    (∀ (store : List Char → StoreResult) (q : List Char) (j : JValue)
        (msg : List Char),
      store q = .body (some j) → jPathValue j = .ok (.str msg) →
      extractCount msg = none → SPARQL.query store q = .ok 0) ∧
    (∀ (store : List Char → StoreResult) (q : List Char) (j : JValue),
      store q = .body (some j) → jPathValue j = .error .keyError →
      SPARQL.query store q = .ok 0) ∧
    (∀ (store : List Char → StoreResult) (q : List Char),
      store q = .httpError → SPARQL.query store q = .ok 0) ∧
    (∀ (store : List Char → StoreResult) (q : List Char),
      store q = .body none → SPARQL.query store q = .error .valueError) ∧
    (∀ (store : List Char → StoreResult) (q : List Char),
      store q = .urlError → SPARQL.query store q = .error .urlError) ∧
    (∀ (store : List Char → StoreResult) (q : List Char) (j : JValue),
      store q = .body (some j) → jPathValue j = .error .indexError →
      SPARQL.query store q = .error .indexError) ∧
    (∀ (store : List Char → StoreResult) (q : List Char) (j : JValue),
      store q = .body (some j) → jPathValue j = .error .typeError →
      SPARQL.query store q = .error .typeError) := by
  refine ⟨?_, ?_, ?_, ?_, ?_, ?_, ?_, ?_⟩
  · intro store q j msg n hs hp he
    simp [SPARQL.query, hs, hp, he]
  · intro store q j msg hs hp he
    simp [SPARQL.query, hs, hp, he]
  · intro store q j hs hp
    simp [SPARQL.query, hs, hp]
  · intro store q hs
    simp [SPARQL.query, hs]
  · intro store q hs
    simp [SPARQL.query, hs]
  · intro store q hs
    simp [SPARQL.query, hs]
  · intro store q j hs hp
    simp [SPARQL.query, hs, hp]
  · intro store q j hs hp
    simp [SPARQL.query, hs, hp]

/-- Witness for C9 at the store reporting 7 affected triples. -/
theorem query_contract_amended_witness :
    store7 (txt "q") = .body (some json7) ∧
    jPathValue json7 =
      .ok (.str (txt "Insert into <g>, 7 (or less) triples -- done")) ∧
    extractCount (txt "Insert into <g>, 7 (or less) triples -- done") = some 7 ∧
    SPARQL.query store7 (txt "q") = .ok 7 :=
  ⟨rfl, rfl, by decide,
    query_contract_amended.1 store7 (txt "q") json7
      (txt "Insert into <g>, 7 (or less) triples -- done") 7 rfl rfl (by decide)⟩

/-- Witness for C3 at the complete cursor 2021-05-01-03-000001. -/
theorem increment_monotonic_amended_witness :
    UpdateDate.increment [2021, 5, 1, 3, 1] = some [2021, 5, 1, 3, 2] ∧
    fitsWidths [2021, 5, 1, 3, 2] = true ∧
    lexLt (UpdateDate.toText [2021, 5, 1, 3, 1])
      (UpdateDate.toText [2021, 5, 1, 3, 2]) = true :=
  ⟨by decide, by decide,
    increment_monotonic_amended [2021, 5, 1, 3, 1] [2021, 5, 1, 3, 2]
      (by decide) (by decide)⟩
